import Mathlib

/-!
Verification of the SmartParkingSystem mobile client logic
(`SmartParkingMobile/screens/ParkingScreen.js`): the slot-resolver
arithmetic (`minutesToNextQuarter`, `calculateX`), the forecast fetch
(`fetchPrediction`), the display policy (`renderPlace`, marker color),
and the list sorting (`sortParkings`, `getNumericDistance`).

JavaScript numbers are modelled as exact rationals; `Math.floor` and
`Math.ceil` are the integer floor and ceiling; the JS remainder operator
is the truncated remainder.  Fallible JS code is modelled with `Except`
and `Option`: assigning to a `const` binding throws a `TypeError` in
JavaScript, which the embedding of `calculateX` returns as an
`Except.error`.
-/

namespace SmartParking

/-- JS `Math.trunc`-style truncation used by the `%` operator: round toward zero. -/
def jsTrunc (q : ℚ) : ℤ := if q < 0 then ⌈q⌉ else ⌊q⌋

/-- The JS remainder `a % b`: truncated remainder, sign of the dividend. -/
def jsMod (a b : ℚ) : ℚ := a - b * (jsTrunc (a / b) : ℚ)

/-- The `useEffect` at component mount (ParkingScreen.js lines 33-39):
`nextQuarterMinute = Math.ceil(currentMinute / 15) * 15` and
`minutesRemaining = nextQuarterMinute - currentMinute`. -/
def minutesToNextQuarter (currentMinute : ℕ) : ℤ :=
  ⌈(currentMinute : ℚ) / 15⌉ * 15 - currentMinute

/-- The value `quotient + extra` computed inside `calculateX`
(ParkingScreen.js lines 82-85): `quotient = Math.floor(A / 15)`,
`remainder = A % 15`, `extra = remainder <= 7.5 ? 0 : 1`. -/
def stepIndexPre (A : ℚ) : ℤ :=
  ⌊A / 15⌋ + (if jsMod A 15 ≤ 15 / 2 then 0 else 1)

/-- `calculateX` (ParkingScreen.js lines 81-90).  The source declares
`const X = quotient + extra` and then, when `X > 120`, executes `X = 8`;
assignment to a `const` binding throws a `TypeError` in JavaScript, so
that branch is an `Except.error`.  Otherwise the function returns `X`. -/
def calculateX (A : ℚ) : Except String ℤ :=
  if stepIndexPre A > 120 then
    Except.error "TypeError: Assignment to constant variable."
  else
    Except.ok (stepIndexPre A)

/-- JS array indexing `row[i]`: `none` models `undefined` (negative or
out-of-range index). -/
def jsIndex (row : List ℚ) (i : ℤ) : Option ℚ :=
  if i < 0 then none else row[i.toNat]?

/-- The value `fetchPrediction` produces for its caller. -/
inductive FetchResult where
  /-- `return data.predictions[0][returnDataPoint]`; the payload is
  `none` when the index is out of range (JS `undefined`). -/
  | value : Option ℚ → FetchResult
  /-- `return "No predictions found"`. -/
  | noPredictions : FetchResult
  /-- an exception reached the `catch` block, was logged with
  `console.error`, and the function returned `undefined`. -/
  | caughtError : FetchResult
deriving DecidableEq

/-- `fetchPrediction` (ParkingScreen.js lines 65-106).  The outcome of
`fetch` + `response.json()` is the `response` argument: `Except.error`
models a network or JSON-parsing exception, `Except.ok none` a payload
without a `predictions` field, and `Except.ok (some predictions)` a
payload with one.  After parsing, the code computes
`returnDataPoint = calculateX(minutesToNextQuarter + drivingTime / 60)`
(line 92); any exception inside the `try` block, including the
`TypeError` from `calculateX`, lands in the `catch` block.  Then
`data.predictions && data.predictions.length > 0` selects between
`data.predictions[0][returnDataPoint]` and `"No predictions found"`. -/
def fetchPrediction (response : Except String (Option (List (List ℚ))))
    (minutesToQuarter drivingTime : ℚ) : FetchResult :=
  match response with
  | Except.error _ => FetchResult.caughtError
  | Except.ok data =>
    match calculateX (minutesToQuarter + drivingTime / 60) with
    | Except.error _ => FetchResult.caughtError
    | Except.ok returnDataPoint =>
      match data with
      | some predictions =>
        if predictions.length > 0 then
          FetchResult.value (jsIndex predictions.headI returnDataPoint)
        else
          FetchResult.noPredictions
      | none => FetchResult.noPredictions

/-- One parking item as assembled in `fetchParkingLots`: the Google
Places entry merged with the carpark-availability record, the forecast
value, the driving time in seconds and the human-readable distance
string (`none` models a `null` distance). -/
structure Parking where
  name : String
  distanceToDestination : Option String
  carpark_info_available_lots : ℤ
  carpark_info_total_lots : ℤ
  prediction : ℚ
  drivingTime : ℚ

/-- A JS number as it appears in the distance comparison: a finite
value, `Infinity`, `-Infinity`, or `NaN`. -/
inductive JSNum where
  | num : ℚ → JSNum
  | posInf : JSNum
  | negInf : JSNum
  | nan : JSNum
deriving DecidableEq

/-- JS subtraction on the numbers produced by `getNumericDistance`. -/
def jsSub : JSNum → JSNum → JSNum
  | JSNum.num a, JSNum.num b => JSNum.num (a - b)
  | JSNum.num _, JSNum.posInf => JSNum.negInf
  | JSNum.num _, JSNum.negInf => JSNum.posInf
  | JSNum.posInf, JSNum.num _ => JSNum.posInf
  | JSNum.posInf, JSNum.posInf => JSNum.nan
  | JSNum.posInf, JSNum.negInf => JSNum.posInf
  | JSNum.negInf, JSNum.num _ => JSNum.negInf
  | JSNum.negInf, JSNum.posInf => JSNum.negInf
  | JSNum.negInf, JSNum.negInf => JSNum.nan
  | JSNum.nan, _ => JSNum.nan
  | _, JSNum.nan => JSNum.nan

/-- The ECMAScript `SortCompare` reading of a comparator result `v`:
the pair `(a, b)` may stay in order unless `v > 0`; a `NaN` result is
treated as `+0`. -/
def jsLeZero : JSNum → Bool
  | JSNum.num q => decide (q ≤ 0)
  | JSNum.posInf => false
  | JSNum.negInf => true
  | JSNum.nan => true

/-- The first match of the regex `[\d.]+` on a list of characters: the
first maximal run of digits and dots, or `none` when there is none. -/
def firstRun : List Char → Option (List Char)
  | [] => none
  | c :: cs =>
    if c.isDigit || c = '.' then
      some (c :: cs.takeWhile (fun d => d.isDigit || d = '.'))
    else
      firstRun cs

/-- The natural number denoted by a list of decimal digits. -/
def digitsToNat (cs : List Char) : ℕ :=
  cs.foldl (fun acc c => 10 * acc + (c.toNat - 48)) 0

/-- JS `parseFloat` restricted to a token of digits and dots: parse the
longest prefix of the form `digits [. digits]`; `none` models `NaN`
(no digit parsed, e.g. the token `"."`). -/
def parseFloatTok (cs : List Char) : Option ℚ :=
  let intPart := cs.takeWhile Char.isDigit
  let rest := cs.dropWhile Char.isDigit
  let fracPart :=
    match rest with
    | c :: t => if c = '.' then t.takeWhile Char.isDigit else []
    | [] => []
  if intPart = [] ∧ fracPart = [] then none
  else some ((digitsToNat intPart : ℚ) +
    (digitsToNat fracPart : ℚ) / (10 : ℚ) ^ fracPart.length)

/-- `getNumericDistance` (ParkingScreen.js lines 47-51):
`if (!distance) return Infinity` (absent or empty string is falsy);
otherwise match `[\d.]+` and `parseFloat` the match, or `Infinity`
when there is no match. -/
def getNumericDistance (distance : Option String) : JSNum :=
  match distance with
  | none => JSNum.posInf
  | some s =>
    if s = "" then JSNum.posInf
    else
      match firstRun s.toList with
      | none => JSNum.posInf
      | some tok =>
        match parseFloatTok tok with
        | none => JSNum.nan
        | some q => JSNum.num q

/-- The `distance` comparator `(a, b) => distanceA - distanceB` read
through `SortCompare`: `a` may precede `b` iff the comparator result is
not positive. -/
def distLe (a b : Parking) : Prop :=
  jsLeZero (jsSub (getNumericDistance a.distanceToDestination)
    (getNumericDistance b.distanceToDestination)) = true

instance : DecidableRel distLe := fun a b => by
  unfold distLe
  infer_instance

/-- The `availableLots` comparator
`(a, b) => b.carpark_info_available_lots - a.carpark_info_available_lots`
read through `SortCompare`. -/
def lotsLe (a b : Parking) : Prop :=
  b.carpark_info_available_lots - a.carpark_info_available_lots ≤ 0

instance : DecidableRel lotsLe := fun a b => by
  unfold lotsLe
  infer_instance

/-- `sortParkings` (ParkingScreen.js lines 42-62): copy the array
(`[...data]`), then sort the copy with the comparator selected by
`sortOption`, or return the copy unsorted for any other option.
`Array.prototype.sort` is required by ECMAScript to be stable and to
produce a comparator-sorted permutation (for a consistent comparator);
it is modelled by the stable `List.insertionSort`.  Because the sort
mutates only the copy, the function is pure in `data`. -/
def sortParkings (sortOption : String) (data : List Parking) : List Parking :=
  let sortedData := data
  if sortOption = "distance" then
    List.insertionSort distLe sortedData
  else if sortOption = "availableLots" then
    List.insertionSort lotsLe sortedData
  else
    sortedData

/-- `getMarkerColor` (ParkingScreen.js lines 320-328). -/
def getMarkerColor (availableLots : ℤ) : String :=
  if availableLots > 10 then "green"
  else if availableLots > 5 then "yellow"
  else "red"

/-- The available-lots figure shown by `renderPlace`
(ParkingScreen.js lines 311-315): the live reading when
`item.drivingTime < 300`, else `Math.floor(item.prediction)`. -/
def renderPlaceAvailability (item : Parking) : ℤ :=
  if item.drivingTime < 300 then item.carpark_info_available_lots
  else ⌊item.prediction⌋

/-- The marker pin color (ParkingScreen.js lines 406-410): colored from
the live reading when `parking.drivingTime < 300`, else from
`Math.floor(parking.prediction)`. -/
def markerPinColor (parking : Parking) : String :=
  if parking.drivingTime < 300 then
    getMarkerColor parking.carpark_info_available_lots
  else
    getMarkerColor ⌊parking.prediction⌋

/-! Arithmetic helpers. -/

theorem ceil_natCast_div_fifteen (m : ℕ) :
    ⌈(m : ℚ) / 15⌉ = -(-(m : ℤ) / 15) := by
  have h1 : (m : ℚ) / 15 = -(((-(m : ℤ) : ℤ) : ℚ) / ((15 : ℕ) : ℚ)) := by
    push_cast
    ring
  rw [h1, Int.ceil_neg, Rat.floor_intCast_div_natCast]
  norm_num

theorem minutesToNextQuarter_fifty : minutesToNextQuarter 50 = 10 := by
  unfold minutesToNextQuarter
  rw [ceil_natCast_div_fifteen]
  decide

theorem minutesToNextQuarter_fiftyeight : minutesToNextQuarter 58 = 2 := by
  unfold minutesToNextQuarter
  rw [ceil_natCast_div_fifteen]
  decide

theorem minutesToNextQuarter_zero : minutesToNextQuarter 0 = 0 := by
  unfold minutesToNextQuarter
  rw [ceil_natCast_div_fifteen]
  decide

theorem calculateX_fifteen : calculateX 15 = Except.ok 1 := by
  have hq : ((15 : ℚ) / 15) = 1 := by norm_num
  have hpre : stepIndexPre 15 = 1 := by
    unfold stepIndexPre jsMod jsTrunc
    rw [hq]
    norm_num
  unfold calculateX
  rw [hpre]
  norm_num

theorem calculateX_twelve : calculateX 12 = Except.ok 1 := by
  have hfl : (⌊(12 : ℚ) / 15⌋ : ℤ) = 0 := by
    rw [Int.floor_eq_iff]
    norm_num
  have hpre : stepIndexPre 12 = 1 := by
    unfold stepIndexPre jsMod jsTrunc
    rw [hfl]
    norm_num
  unfold calculateX
  rw [hpre]
  norm_num

/-- C5: for every current minute `m` in `[0, 59]`, the mount-time value
`Math.ceil(m / 15) * 15 - m` is an integer in `[0, 14]`, equals the
minutes remaining until the next 15-minute wall-clock boundary
(adding it to `m` reaches a multiple of 15), and is `0` exactly when
`m` is a multiple of 15. -/
theorem minutesToNextQuarter_range (m : ℕ) (h : m ≤ 59) :
    minutesToNextQuarter m = (15 - (m : ℤ) % 15) % 15 ∧
    0 ≤ minutesToNextQuarter m ∧ minutesToNextQuarter m ≤ 14 ∧
    ((m : ℤ) + minutesToNextQuarter m) % 15 = 0 ∧
    (minutesToNextQuarter m = 0 ↔ m % 15 = 0) := by
  unfold minutesToNextQuarter
  rw [ceil_natCast_div_fifteen]
  omega

/-- Witness for C5 at `m = 50`. -/
theorem minutesToNextQuarter_range_app :
    50 ≤ 59 ∧
    (minutesToNextQuarter 50 = (15 - ((50 : ℕ) : ℤ) % 15) % 15 ∧
      0 ≤ minutesToNextQuarter 50 ∧ minutesToNextQuarter 50 ≤ 14 ∧
      (((50 : ℕ) : ℤ) + minutesToNextQuarter 50) % 15 = 0 ∧
      (minutesToNextQuarter 50 = 0 ↔ 50 % 15 = 0)) :=
  ⟨by decide, minutesToNextQuarter_range 50 (by decide)⟩

/-- C2: for every non-negative total number of minutes `A`, the index
`calculateX` computes before the clamp test equals
`floor(A / 15)` plus `1` exactly when the remainder `A % 15` strictly
exceeds `7.5`; at a remainder of exactly `7.5` the comparison
`remainder <= 7.5` holds, so nothing is added and the index stays at
the quotient. -/
theorem stepIndexPre_rounding (A : ℚ) (h : 0 ≤ A) :
    stepIndexPre A = ⌊A / 15⌋ + (if 15 / 2 < jsMod A 15 then 1 else 0) ∧
    (jsMod A 15 = 15 / 2 → stepIndexPre A = ⌊A / 15⌋) := by
  constructor
  · unfold stepIndexPre
    by_cases hr : jsMod A 15 ≤ 15 / 2
    · rw [if_pos hr, if_neg (not_lt.mpr hr)]
    · rw [if_neg hr, if_pos (not_le.mp hr)]
  · intro hm
    unfold stepIndexPre
    rw [if_pos (le_of_eq hm), add_zero]

/-- Witness for C2 at the midpoint `A = 15 / 2` (remainder exactly 7.5). -/
theorem stepIndexPre_rounding_app :
    (0 : ℚ) ≤ 15 / 2 ∧
    (stepIndexPre (15 / 2) =
        ⌊(15 : ℚ) / 2 / 15⌋ + (if 15 / 2 < jsMod (15 / 2) 15 then 1 else 0) ∧
      (jsMod (15 / 2) 15 = 15 / 2 → stepIndexPre (15 / 2) = ⌊(15 : ℚ) / 2 / 15⌋)) :=
  ⟨by norm_num, stepIndexPre_rounding (15 / 2) (by norm_num)⟩

/-- C3: the two worked examples of the spec.  At minute 50 with 300
seconds of driving, `minutesToNextQuarter = 10`, the total is 15
minutes and the resolved step index is 1; at minute 58 with 600
seconds, `minutesToNextQuarter = 2`, the total is 12 minutes,
`12 > 7.5` rounds up, and the resolved step index is again 1. -/
theorem resolver_worked_examples :
    calculateX (((minutesToNextQuarter 50 : ℤ) : ℚ) + 300 / 60) = Except.ok 1 ∧
    calculateX (((minutesToNextQuarter 58 : ℤ) : ℚ) + 600 / 60) = Except.ok 1 := by
  constructor
  · rw [minutesToNextQuarter_fifty]
    have h : (((10 : ℤ) : ℚ) + 300 / 60) = 15 := by norm_num
    rw [h, calculateX_fifteen]
  · rw [minutesToNextQuarter_fiftyeight]
    have h : (((2 : ℤ) : ℚ) + 600 / 60) = 12 := by norm_num
    rw [h, calculateX_twelve]

/-- C1 (failing input): at minute 0 with a 3-hour driving time
(10800 s) the total is 180 minutes and `calculateX` returns the step
index 12 unclamped — the clamp tests `X > 120`, not `X > 8` — so the
caller indexes `predictions[0][12]`, which is out of range
(`undefined`) for the 9-entry forecast row of the 8-step model,
instead of the documented fallback index 8. -/
theorem calculateX_three_hours_out_of_range :
    calculateX (((minutesToNextQuarter 0 : ℤ) : ℚ) + 10800 / 60) = Except.ok 12 ∧
    (8 : ℤ) < 12 ∧
    (∀ row : List ℚ, row.length = 9 → jsIndex row 12 = none) := by
  refine ⟨?_, by norm_num, ?_⟩
  · rw [minutesToNextQuarter_zero]
    have h : (((0 : ℤ) : ℚ) + 10800 / 60) = 180 := by norm_num
    rw [h]
    have hq : ((180 : ℚ) / 15) = 12 := by norm_num
    have hpre : stepIndexPre 180 = 12 := by
      unfold stepIndexPre jsMod jsTrunc
      rw [hq]
      norm_num
    unfold calculateX
    rw [hpre]
    norm_num
  · intro row hlen
    unfold jsIndex
    rw [if_neg (by norm_num : ¬ (12 : ℤ) < 0)]
    apply List.getElem?_eq_none
    rw [hlen]
    norm_num

/-- Witness for C1: a concrete 9-entry forecast row indexed at 12
yields `undefined`. -/
theorem calculateX_three_hours_out_of_range_app :
    jsIndex [0, 0, 0, 0, 0, 0, 0, 0, 0] 12 = none :=
  calculateX_three_hours_out_of_range.2.2 [0, 0, 0, 0, 0, 0, 0, 0, 0] rfl

/-- C4 (failing input): `calculateX` is not total over the non-negative
inputs.  At `A = 1830` (a non-negative input whose unclamped index,
122, triggers the clamp branch) the source executes `X = 8` on the
`const` binding `X`, which throws a `TypeError` instead of returning a
value. -/
theorem calculateX_throws_on_clamp_branch :
    (0 : ℚ) ≤ 1830 ∧
    calculateX 1830 = Except.error "TypeError: Assignment to constant variable." := by
  refine ⟨by norm_num, ?_⟩
  have hq : ((1830 : ℚ) / 15) = 122 := by norm_num
  have hpre : stepIndexPre 1830 = 122 := by
    unfold stepIndexPre jsMod jsTrunc
    rw [hq]
    norm_num
  unfold calculateX
  rw [hpre]
  norm_num

/-- C6: the client display policy.  When `item.drivingTime < 300`
seconds the list row and the map marker show the live
`carpark_info_available_lots` reading; otherwise they show
`Math.floor(item.prediction)`.  The forecast is never used when the
driving time is under 5 minutes. -/
theorem display_prefers_live_under_five_minutes (item : Parking) :
    (item.drivingTime < 300 →
      renderPlaceAvailability item = item.carpark_info_available_lots ∧
      markerPinColor item = getMarkerColor item.carpark_info_available_lots) ∧
    (¬ item.drivingTime < 300 →
      renderPlaceAvailability item = ⌊item.prediction⌋ ∧
      markerPinColor item = getMarkerColor ⌊item.prediction⌋) := by
  constructor
  · intro hlt
    unfold renderPlaceAvailability markerPinColor
    rw [if_pos hlt, if_pos hlt]
    exact ⟨rfl, rfl⟩
  · intro hge
    unfold renderPlaceAvailability markerPinColor
    rw [if_neg hge, if_neg hge]
    exact ⟨rfl, rfl⟩

/-- Witness for C6: a 200-second drive shows the live reading, a
600-second drive shows the floored forecast. -/
theorem display_prefers_live_under_five_minutes_app :
    (renderPlaceAvailability (Parking.mk "A70" none 17 50 (23 / 2) 200) = 17 ∧
      markerPinColor (Parking.mk "A70" none 17 50 (23 / 2) 200) = getMarkerColor 17) ∧
    (renderPlaceAvailability (Parking.mk "A70" none 17 50 (23 / 2) 600) = ⌊(23 : ℚ) / 2⌋ ∧
      markerPinColor (Parking.mk "A70" none 17 50 (23 / 2) 600) = getMarkerColor ⌊(23 : ℚ) / 2⌋) :=
  ⟨(display_prefers_live_under_five_minutes (Parking.mk "A70" none 17 50 (23 / 2) 200)).1
      (by norm_num),
    (display_prefers_live_under_five_minutes (Parking.mk "A70" none 17 50 (23 / 2) 600)).2
      (by norm_num)⟩

/-- C7: when the parsed `/predict` payload has a non-empty
`predictions` list and the step-index computation returns `X`,
`fetchPrediction` returns exactly the entry of the first (single)
forecast row at index `X` — entry `predictions[0][X]` — and nothing
else. -/
theorem fetchPrediction_selects_resolved_entry
    (predictions : List (List ℚ)) (mq dt : ℚ) (X : ℤ)
    (hne : predictions ≠ [])
    (hX : calculateX (mq + dt / 60) = Except.ok X) :
    fetchPrediction (Except.ok (some predictions)) mq dt =
      FetchResult.value (jsIndex predictions.headI X) := by
  unfold fetchPrediction
  rw [hX]
  dsimp only
  rw [if_pos (List.length_pos.mpr hne)]

/-- Witness for C7: with the single forecast row `[3, 4]`, ten minutes
to the next quarter and a 300-second drive, the resolved index is 1 and
the returned value is the entry `4`. -/
theorem fetchPrediction_selects_resolved_entry_app :
    fetchPrediction (Except.ok (some [[3, 4]])) 10 300 = FetchResult.value (some 4) := by
  have h := fetchPrediction_selects_resolved_entry [[3, 4]] 10 300 1
    (by simp) (by rw [show (10 : ℚ) + 300 / 60 = 15 by norm_num, calculateX_fifteen])
  rw [h]
  rfl

/-- C8: the forecast path degrades instead of blocking.  A fetch or
JSON-parsing error is caught inside `fetchPrediction` (logged, the
function returns `undefined`), so no exception reaches the caller that
renders the live readings; and whenever the step-index computation
returns normally, a payload with no `predictions` field, or with an
empty `predictions` list, yields the string result
`"No predictions found"` rather than a forecast value. -/
theorem fetchPrediction_degrades_on_failure :
    (∀ e : String, ∀ mq dt : ℚ,
      fetchPrediction (Except.error e) mq dt = FetchResult.caughtError) ∧
    (∀ mq dt : ℚ, (∃ X, calculateX (mq + dt / 60) = Except.ok X) →
      fetchPrediction (Except.ok none) mq dt = FetchResult.noPredictions ∧
      fetchPrediction (Except.ok (some [])) mq dt = FetchResult.noPredictions) := by
  constructor
  · intro e mq dt
    rfl
  · rintro mq dt ⟨X, hX⟩
    unfold fetchPrediction
    rw [hX]
    exact ⟨rfl, by simp⟩

/-- Witness for C8: a concrete network error is caught, and concrete
no-predictions payloads produce the string result. -/
theorem fetchPrediction_degrades_on_failure_app :
    fetchPrediction (Except.error "Network request failed") 10 300 = FetchResult.caughtError ∧
    fetchPrediction (Except.ok none) 10 300 = FetchResult.noPredictions ∧
    fetchPrediction (Except.ok (some [])) 10 300 = FetchResult.noPredictions :=
  ⟨fetchPrediction_degrades_on_failure.1 "Network request failed" 10 300,
    (fetchPrediction_degrades_on_failure.2 10 300
      ⟨1, by rw [show (10 : ℚ) + 300 / 60 = 15 by norm_num, calculateX_fifteen]⟩).1,
    (fetchPrediction_degrades_on_failure.2 10 300
      ⟨1, by rw [show (10 : ℚ) + 300 / 60 = 15 by norm_num, calculateX_fifteen]⟩).2⟩

/-! Sorting machinery: `List.insertionSort` produces a sorted list as
soon as the relation is total, and transitive on the elements actually
sorted (the JS comparator is inconsistent only on `NaN` keys, which
these hypotheses exclude where needed). -/

theorem sorted_orderedInsert_on {α : Type} (r : α → α → Prop) [DecidableRel r]
    (P : α → Prop)
    (htot : ∀ a b : α, r a b ∨ r b a)
    (htrans : ∀ a b c : α, P a → P b → P c → r a b → r b c → r a c)
    (a : α) (ha : P a) :
    ∀ l : List α, (∀ x ∈ l, P x) → List.Sorted r l →
      List.Sorted r (List.orderedInsert r a l)
  | [], _, _ => by
    simp [List.orderedInsert, List.sorted_singleton]
  | b :: l, hP, hs => by
    rw [List.orderedInsert]
    by_cases hab : r a b
    · rw [if_pos hab, List.sorted_cons]
      refine ⟨?_, hs⟩
      intro c hc
      rcases List.mem_cons.mp hc with rfl | hcl
      · exact hab
      · exact htrans a b c ha (hP b (List.mem_cons_self b l))
          (hP c (List.mem_cons_of_mem b hcl)) hab (List.rel_of_sorted_cons hs c hcl)
    · rw [if_neg hab, List.sorted_cons]
      constructor
      · intro c hc
        rcases (List.mem_orderedInsert r).mp hc with rfl | hcl
        · exact (htot c b).resolve_left hab
        · exact List.rel_of_sorted_cons hs c hcl
      · exact sorted_orderedInsert_on r P htot htrans a ha l
          (fun x hx => hP x (List.mem_cons_of_mem b hx)) hs.of_cons

theorem sorted_insertionSort_on {α : Type} (r : α → α → Prop) [DecidableRel r]
    (P : α → Prop)
    (htot : ∀ a b : α, r a b ∨ r b a)
    (htrans : ∀ a b c : α, P a → P b → P c → r a b → r b c → r a c) :
    ∀ l : List α, (∀ x ∈ l, P x) → List.Sorted r (List.insertionSort r l)
  | [], _ => List.sorted_nil
  | a :: l, hP => by
    rw [List.insertionSort]
    exact sorted_orderedInsert_on r P htot htrans a (hP a (List.mem_cons_self a l))
      (List.insertionSort r l)
      (fun x hx => hP x (List.mem_cons_of_mem a (by simpa using hx)))
      (sorted_insertionSort_on r P htot htrans l
        (fun x hx => hP x (List.mem_cons_of_mem a hx)))

theorem jsLeZero_jsSub_total (x y : JSNum) :
    jsLeZero (jsSub x y) = true ∨ jsLeZero (jsSub y x) = true := by
  cases x <;> cases y <;> simp [jsSub, jsLeZero]
  case num.num a b =>
    rcases le_total a b with hab | hba
    · exact Or.inl (by linarith)
    · exact Or.inr (by linarith)

theorem jsLeZero_jsSub_trans (x y z : JSNum)
    (hx : x ≠ JSNum.nan) (hy : y ≠ JSNum.nan) (hz : z ≠ JSNum.nan)
    (h1 : jsLeZero (jsSub x y) = true) (h2 : jsLeZero (jsSub y z) = true) :
    jsLeZero (jsSub x z) = true := by
  cases x <;> cases y <;> cases z <;> simp_all [jsSub, jsLeZero]
  linarith

/-- C9: for every input list and any sort option, `sortParkings`
returns a permutation of its input (the input itself, being only
shallow-copied, is never mutated — the embedding is pure in `data`);
under `availableLots` the result is ordered non-increasing in
`carpark_info_available_lots`; under any unrecognized option the input
order is returned unchanged. -/
theorem sortParkings_spec (sortOption : String) (data : List Parking) :
    List.Perm (sortParkings sortOption data) data ∧
    (sortOption = "availableLots" →
      List.Sorted (fun a b : Parking =>
        b.carpark_info_available_lots ≤ a.carpark_info_available_lots)
        (sortParkings sortOption data)) ∧
    (sortOption ≠ "distance" → sortOption ≠ "availableLots" →
      sortParkings sortOption data = data) := by
  refine ⟨?_, ?_, ?_⟩
  · simp only [sortParkings]
    by_cases h1 : sortOption = "distance"
    · rw [if_pos h1]
      exact List.perm_insertionSort distLe data
    · rw [if_neg h1]
      by_cases h2 : sortOption = "availableLots"
      · rw [if_pos h2]
        exact List.perm_insertionSort lotsLe data
      · rw [if_neg h2]
  · intro h2
    subst h2
    simp only [sortParkings]
    rw [if_pos trivial]
    have hs : List.Sorted lotsLe (List.insertionSort lotsLe data) :=
      sorted_insertionSort_on lotsLe (fun _ => True)
        (fun a b => by unfold lotsLe; omega)
        (fun a b c _ _ _ hab hbc => by unfold lotsLe at hab hbc ⊢; omega)
        data (fun x _ => trivial)
    exact hs.imp (fun hab => by unfold lotsLe at hab; omega)
  · intro h1 h2
    simp only [sortParkings]
    rw [if_neg h1, if_neg h2]

/-- Witness for C9: a concrete list sorted by available lots, and a
concrete unrecognized option returning the list unchanged. -/
theorem sortParkings_spec_app :
    List.Sorted (fun a b : Parking =>
      b.carpark_info_available_lots ≤ a.carpark_info_available_lots)
      (sortParkings "availableLots"
        [Parking.mk "A" none 3 10 0 400, Parking.mk "B" none 7 10 0 400]) ∧
    sortParkings "time" [Parking.mk "A" none 3 10 0 400] =
      [Parking.mk "A" none 3 10 0 400] :=
  ⟨(sortParkings_spec "availableLots"
      [Parking.mk "A" none 3 10 0 400, Parking.mk "B" none 7 10 0 400]).2.1 rfl,
    (sortParkings_spec "time" [Parking.mk "A" none 3 10 0 400]).2.2
      (by decide) (by decide)⟩

/-- C10: a missing distance, or a distance string with no match for
the regex of digits and dots, is assigned `Infinity`; when the first
match parses to a finite number, that number is the comparison key;
an item with a finite key may precede an `Infinity` item but never the
other way around, so in the distance-sorted output (for lists whose
keys are not `NaN`) no `Infinity` item ever precedes a finite-keyed
item. -/
theorem getNumericDistance_spec :
    getNumericDistance none = JSNum.posInf ∧
    (∀ s : String, firstRun s.toList = none →
      getNumericDistance (some s) = JSNum.posInf) ∧
    (∀ s : String, ∀ tok : List Char, ∀ q : ℚ, firstRun s.toList = some tok →
      parseFloatTok tok = some q → getNumericDistance (some s) = JSNum.num q) ∧
    (∀ a b : Parking, ∀ q : ℚ,
      getNumericDistance a.distanceToDestination = JSNum.num q →
      getNumericDistance b.distanceToDestination = JSNum.posInf →
      distLe a b ∧ ¬ distLe b a) ∧
    (∀ data : List Parking,
      (∀ x ∈ data, getNumericDistance x.distanceToDestination ≠ JSNum.nan) →
      List.Pairwise (fun a b : Parking =>
        ¬(getNumericDistance a.distanceToDestination = JSNum.posInf ∧
          ∃ q, getNumericDistance b.distanceToDestination = JSNum.num q))
        (sortParkings "distance" data)) := by
  refine ⟨rfl, ?_, ?_, ?_, ?_⟩
  · intro s hfr
    unfold getNumericDistance
    dsimp only
    by_cases hs : s = ""
    · rw [if_pos hs]
    · rw [if_neg hs, hfr]
  · intro s tok q hfr hpf
    have hs : ¬ s = "" := by
      intro hcon
      subst hcon
      simp [firstRun] at hfr
    unfold getNumericDistance
    dsimp only
    rw [if_neg hs, hfr]
    dsimp only
    rw [hpf]
  · intro a b q ha hb
    unfold distLe
    rw [ha, hb]
    exact ⟨rfl, by simp [jsSub, jsLeZero]⟩
  · intro data hP
    have hsorted : List.Sorted distLe (sortParkings "distance" data) := by
      simp only [sortParkings]
      rw [if_pos trivial]
      exact sorted_insertionSort_on distLe
        (fun x => getNumericDistance x.distanceToDestination ≠ JSNum.nan)
        (fun a b => jsLeZero_jsSub_total _ _)
        (fun a b c hpa hpb hpc hab hbc =>
          jsLeZero_jsSub_trans _ _ _ hpa hpb hpc hab hbc)
        data hP
    refine hsorted.imp ?_
    intro a b hab
    rintro ⟨hpa, q, hqb⟩
    unfold distLe at hab
    rw [hpa, hqb] at hab
    simp [jsSub, jsLeZero] at hab

theorem parseFloatTok_five_point_three :
    parseFloatTok ['5', '.', '3'] = some (53 / 10) := by
  have h1 : List.takeWhile Char.isDigit ['5', '.', '3'] = ['5'] := by decide
  have h2 : List.dropWhile Char.isDigit ['5', '.', '3'] = ['.', '3'] := by decide
  have h3 : List.takeWhile Char.isDigit ['3'] = ['3'] := by decide
  have h4 : digitsToNat ['5'] = 5 := by decide
  have h5 : digitsToNat ['3'] = 3 := by decide
  simp [parseFloatTok, h1, h2, h3]
  norm_num [h4, h5]

theorem getNumericDistance_five_point_three :
    getNumericDistance (some "5.3 km") = JSNum.num (53 / 10) := by
  unfold getNumericDistance
  dsimp only
  rw [if_neg (by decide : ¬ ("5.3 km" : String) = "")]
  rw [show firstRun "5.3 km".toList = some ['5', '.', '3'] from by decide]
  dsimp only
  rw [parseFloatTok_five_point_three]

/-- Witness for C10: the string with no numeric part maps to
`Infinity`; the first match of a realistic distance string is its
parsed value; a finite-keyed item precedes a missing-distance item and
the distance-sorted output never puts the `Infinity` item first. -/
theorem getNumericDistance_spec_app :
    getNumericDistance (some "km") = JSNum.posInf ∧
    getNumericDistance (some "5.3 km") = JSNum.num (53 / 10) ∧
    (distLe (Parking.mk "A" (some "5.3 km") 3 10 0 400) (Parking.mk "B" none 7 10 0 400) ∧
      ¬ distLe (Parking.mk "B" none 7 10 0 400) (Parking.mk "A" (some "5.3 km") 3 10 0 400)) ∧
    List.Pairwise (fun a b : Parking =>
      ¬(getNumericDistance a.distanceToDestination = JSNum.posInf ∧
        ∃ q, getNumericDistance b.distanceToDestination = JSNum.num q))
      (sortParkings "distance"
        [Parking.mk "B" none 7 10 0 400, Parking.mk "A" (some "5.3 km") 3 10 0 400]) :=
  ⟨getNumericDistance_spec.2.1 "km" rfl,
    getNumericDistance_spec.2.2.1 "5.3 km" ['5', '.', '3'] (53 / 10) rfl
      parseFloatTok_five_point_three,
    getNumericDistance_spec.2.2.2.1 (Parking.mk "A" (some "5.3 km") 3 10 0 400)
      (Parking.mk "B" none 7 10 0 400) (53 / 10) getNumericDistance_five_point_three rfl,
    getNumericDistance_spec.2.2.2.2
      [Parking.mk "B" none 7 10 0 400, Parking.mk "A" (some "5.3 km") 3 10 0 400]
      (by decide)⟩

end SmartParking
